/-
Verification of the real-time session & broadcast subsystem of the chat
server in `src/server.js` (a socket.io group-chat gateway).

The shallow embedding below translates the socket event handlers
(`auth`, `send-message`, `send-image`, `disconnect`) into pure state
transition functions over an explicit `ServerState`:
  * `users`      — the contents of `users.json`,
  * `messages`   — the contents of `messages.json`,
  * `online`     — the JS object `online` (socket.id → safe user),
  * `socketUser` — the per-socket `socket.user` field of live sockets.
JS objects keyed by socket id are modelled as association lists with
JS-object update semantics (in-place replacement of an existing key).
Outbound traffic (`socket.emit` / `io.emit`) is modelled as a list of
`Event` values; `Event.recipients` gives the delivery set of each event
given the set of currently open connections.
-/
import Mathlib

/-- A persisted user record, as stored in `users.json` by the register route. -/
structure User where
  id : String
  username : String
  passwordHash : String
  profile : String
  color : String
  createdAt : Nat
  deriving DecidableEq, Repr

/-- The safe projection of a user attached to sockets and presence:
`{ id, username, profile, color }` (server.js line 143), never the hash. -/
structure SafeUser where
  id : String
  username : String
  profile : String
  color : String
  deriving DecidableEq, Repr

/-- `{ id: user.id, username: user.username, profile: user.profile, color: user.color }`. -/
def safeUser (u : User) : SafeUser :=
  { id := u.id, username := u.username, profile := u.profile, color := u.color }

/-- A persisted chat message, as stored in `messages.json`.  Text messages
carry `text`, image messages carry `image`; the remaining fields are the
denormalized snapshot of the sender taken at send time. -/
structure Message where
  id : String
  userId : String
  username : String
  profile : String
  color : String
  text : Option String := none
  image : Option String := none
  timestamp : Nat
  deriving DecidableEq, Repr

/-- Connection (socket) identities: `socket.id` strings. -/
abbrev ConnId := String

/-- Outbound socket traffic.  `authFailed` and `loadMessages` are emitted
with `socket.emit` (targeted); `updateUsers` and `newMessage` with
`io.emit` (broadcast). -/
inductive Event where
  | authFailed (target : ConnId)
  | updateUsers (payload : List SafeUser)
  | loadMessages (target : ConnId) (payload : List Message)
  | newMessage (payload : Message)
  deriving DecidableEq, Repr

/-- Delivery set of an emitted event, given the list of open connections:
`io.emit` reaches every open connection, `socket.emit` only its socket. -/
def Event.recipients (conns : List ConnId) : Event → List ConnId
  | .authFailed target => [target]
  | .updateUsers _ => conns
  | .loadMessages target _ => [target]
  | .newMessage _ => conns

/-- JS-object read `o[k]` (first matching key of the association list). -/
def objGet (l : List (ConnId × SafeUser)) (k : ConnId) : Option SafeUser :=
  match l with
  | [] => none
  | (k', v') :: rest => if k' == k then some v' else objGet rest k

/-- JS-object write `o[k] = v`: replace in place when the key exists,
otherwise append (JS objects keep insertion order on re-assignment). -/
def objSet (l : List (ConnId × SafeUser)) (k : ConnId) (v : SafeUser) :
    List (ConnId × SafeUser) :=
  match l with
  | [] => [(k, v)]
  | (k', v') :: rest =>
    if k' == k then (k, v) :: rest else (k', v') :: objSet rest k v

/-- JS-object delete `delete o[k]` (removes the first matching key). -/
def objDelete (l : List (ConnId × SafeUser)) (k : ConnId) :
    List (ConnId × SafeUser) :=
  match l with
  | [] => []
  | (k', v') :: rest =>
    if k' == k then rest else (k', v') :: objDelete rest k

/-- `Object.values(online)`. -/
def objValues (l : List (ConnId × SafeUser)) : List SafeUser :=
  l.map Prod.snd

/-- Number of entries of the association list with the given key. -/
def countKey (l : List (ConnId × SafeUser)) (k : ConnId) : Nat :=
  (l.filter (fun p => p.1 == k)).length

/-- The whole runtime state touched by the socket handlers. -/
structure ServerState where
  users : List User
  messages : List Message
  online : List (ConnId × SafeUser)
  socketUser : List (ConnId × SafeUser)
  deriving DecidableEq, Repr

/-- JS string default `s || d`: the empty string is the only falsy string. -/
def jsOr (s d : String) : String :=
  if s = "" then d else s

/-- JS `String.prototype.trim()`: strip leading and trailing whitespace
(written over the character list so that it is structurally recursive). -/
def jsTrim (s : String) : String :=
  ⟨((s.data.dropWhile Char.isWhitespace).reverse.dropWhile
      Char.isWhitespace).reverse⟩

/-- The message object built by the `send-message` handler (server.js
lines 162-170), from the sender snapshot `socket.user` held at send time. -/
def mkTextMsg (su : SafeUser) (text : String) (msgId : String) (now : Nat) :
    Message :=
  { id := msgId, userId := su.id, username := su.username,
    profile := jsOr su.profile "", color := jsOr su.color "#fff",
    text := some text, image := none, timestamp := now }

/-- The message object built by the `send-image` handler (server.js
lines 185-193). -/
def mkImageMsg (su : SafeUser) (imageUrl : String) (msgId : String) (now : Nat) :
    Message :=
  { id := msgId, userId := su.id, username := su.username,
    profile := jsOr su.profile "", color := jsOr su.color "#fff",
    text := none, image := some imageUrl, timestamp := now }

/-- `messages.push(msg); if (messages.length > 2000) messages.splice(0,
messages.length - 2000)` — append with FIFO eviction down to 2000. -/
def appendEvict (log : List Message) (m : Message) : List Message :=
  let l := log ++ [m]
  if l.length > 2000 then l.drop (l.length - 2000) else l

/-- The `auth` handler (server.js lines 134-153): look the user up by id;
on failure emit `auth-failed` to the socket and return; on success attach
the safe user to the socket and to `online`, broadcast `update-users`,
and send the last 500 saved messages (`messages.slice(-500)`) to the
authenticating socket only. -/
def handleAuth (st : ServerState) (sid : ConnId) (userId : String) :
    ServerState × List Event :=
  match st.users.find? (fun u => u.id == userId) with
  | none => (st, [Event.authFailed sid])
  | some user =>
    let safe := safeUser user
    let online' := objSet st.online sid safe
    let st' := { st with socketUser := objSet st.socketUser sid safe,
                         online := online' }
    let tail := st.messages.drop (st.messages.length - 500)
    (st', [Event.updateUsers (objValues online'), Event.loadMessages sid tail])

/-- The `send-message` handler (server.js lines 156-177): drop silently if
the socket is unauthenticated or the text trims to empty; otherwise build
the message from the sender snapshot, persist with eviction and broadcast
`new-message` to everyone. -/
def handleSendMessage (st : ServerState) (sid : ConnId) (text : String)
    (msgId : String) (now : Nat) : ServerState × List Event :=
  match objGet st.socketUser sid with
  | none => (st, [])
  | some su =>
    let t := jsTrim text
    if t = "" then (st, [])
    else
      let msg := mkTextMsg su t msgId now
      ({ st with messages := appendEvict st.messages msg },
       [Event.newMessage msg])

/-- The `send-image` handler (server.js lines 180-199): drop silently if
the socket is unauthenticated or the url is empty; otherwise persist an
image message with eviction and broadcast `new-message`. -/
def handleSendImage (st : ServerState) (sid : ConnId) (imageUrl : String)
    (msgId : String) (now : Nat) : ServerState × List Event :=
  match objGet st.socketUser sid with
  | none => (st, [])
  | some su =>
    if imageUrl = "" then (st, [])
    else
      let msg := mkImageMsg su imageUrl msgId now
      ({ st with messages := appendEvict st.messages msg },
       [Event.newMessage msg])

/-- The `disconnect` handler (server.js lines 201-207): if the socket has
a presence entry, delete it and broadcast the updated `update-users`
snapshot; otherwise do nothing observable. -/
def handleDisconnect (st : ServerState) (sid : ConnId) :
    ServerState × List Event :=
  match objGet st.online sid with
  | none => (st, [])
  | some _ =>
    let online' := objDelete st.online sid
    ({ st with online := online' }, [Event.updateUsers (objValues online')])

/-- Inbound socket events of the protocol. -/
inductive InEvent where
  | auth (sid : ConnId) (userId : String)
  | sendText (sid : ConnId) (text : String) (msgId : String) (now : Nat)
  | sendImage (sid : ConnId) (imageUrl : String) (msgId : String) (now : Nat)
  | disconnect (sid : ConnId)
  deriving DecidableEq, Repr

/-- Dispatch of one inbound event to its handler. -/
def step (st : ServerState) : InEvent → ServerState × List Event
  | .auth sid uid => handleAuth st sid uid
  | .sendText sid t mid now => handleSendMessage st sid t mid now
  | .sendImage sid r mid now => handleSendImage st sid r mid now
  | .disconnect sid => handleDisconnect st sid

/-- Run a sequence of inbound events, accumulating all emitted traffic. -/
def runEvents (st : ServerState) : List InEvent → ServerState × List Event
  | [] => (st, [])
  | e :: es =>
    let r := step st e
    let r' := runEvents r.1 es
    (r'.1, r.2 ++ r'.2)

/-- Outcome of the `await writeJSON(MESSAGES_FILE, ...)` call. -/
inductive WriteOutcome where
  | ok
  | ioError
  deriving DecidableEq, Repr

/-- The `send-message` handler with the persistence write made explicit:
`io.emit("new-message", msg)` sits after `await writeJSON(...)`
(server.js lines 174-176), so a rejected write aborts the async handler
before the emit — nothing is broadcast and the log write did not take. -/
def handleSendMessageFallible (st : ServerState) (sid : ConnId) (text : String)
    (msgId : String) (now : Nat) (w : WriteOutcome) : ServerState × List Event :=
  match objGet st.socketUser sid with
  | none => (st, [])
  | some su =>
    let t := jsTrim text
    if t = "" then (st, [])
    else
      match w with
      | .ok =>
        let msg := mkTextMsg su t msgId now
        ({ st with messages := appendEvict st.messages msg },
         [Event.newMessage msg])
      | .ioError => (st, [])

/-- `readJSON` on the messages file (server.js lines 42-49): any read or
parse failure is caught and yields `[]`; `none` stands for a missing,
corrupt or unreadable backing file. -/
def readJSONMessages (raw : Option (List Message)) : List Message :=
  raw.getD []

/-- `GET /api/messages` (server.js lines 121-124): returns the full
persisted log, reading only the messages file. -/
def apiMessages (st : ServerState) : List Message :=
  st.messages

/-- Two user records that agree on everything except the password hash. -/
def agreeExceptHash (u v : User) : Prop :=
  u.id = v.id ∧ u.username = v.username ∧ u.profile = v.profile ∧
    u.color = v.color ∧ u.createdAt = v.createdAt

/-- Two server states whose user stores differ at most in password hashes
and that are otherwise identical. -/
def StatesAgree (s1 s2 : ServerState) : Prop :=
  List.Forall₂ agreeExceptHash s1.users s2.users ∧
    s1.messages = s2.messages ∧ s1.online = s2.online ∧
    s1.socketUser = s2.socketUser

/-- Every presence entry belongs to a live authenticated session. -/
def PresenceInv (st : ServerState) : Prop :=
  ∀ sid : ConnId, (objGet st.online sid).isSome →
    (objGet st.socketUser sid).isSome

/-! ### Concrete fixtures used by the closed witness statements -/

/-- A registered user. -/
def aliceU : User :=
  { id := "u1", username := "alice", passwordHash := "aaaa", profile := "",
    color := "#112233", createdAt := 0 }

/-- The same record with a different password hash only. -/
def aliceU2 : User :=
  { aliceU with passwordHash := "bbbb" }

/-- Alice's safe projection. -/
def aliceS : SafeUser := safeUser aliceU

/-- A fresh server holding one registered user and no connections. -/
def st0 : ServerState :=
  { users := [aliceU], messages := [], online := [], socketUser := [] }

/-- The server after connection `c1` authenticated as `u1`. -/
def stA : ServerState :=
  { users := [aliceU], messages := [], online := [("c1", aliceS)],
    socketUser := [("c1", aliceS)] }

/-- A fixed message used to build long send sequences. -/
def mA : Message := mkTextMsg aliceS "hi" "m1" 5

/-! ### Association-list lemmas (JS-object semantics) -/

theorem objGet_objSet_self (l : List (ConnId × SafeUser)) (k : ConnId)
    (v : SafeUser) : objGet (objSet l k v) k = some v := by
  induction l with
  | nil => simp [objSet, objGet]
  | cons p rest ih =>
    obtain ⟨k', v'⟩ := p
    by_cases h : k' = k
    · simp [objSet, objGet, h]
    · simp [objSet, objGet, h, ih]

theorem objGet_objSet_ne (l : List (ConnId × SafeUser)) (k k' : ConnId)
    (v : SafeUser) (h : k' ≠ k) : objGet (objSet l k v) k' = objGet l k' := by
  induction l with
  | nil => simp [objSet, objGet, Ne.symm h]
  | cons p rest ih =>
    obtain ⟨a, b⟩ := p
    by_cases ha : a = k
    · subst ha
      simp [objSet, objGet, Ne.symm h]
    · simp [objSet, objGet, ha, ih]

theorem countKey_cons (p : ConnId × SafeUser) (l : List (ConnId × SafeUser))
    (k : ConnId) :
    countKey (p :: l) k = (if p.1 = k then 1 else 0) + countKey l k := by
  by_cases h : p.1 = k <;> simp [countKey, List.filter_cons, h, Nat.add_comm]

theorem countKey_eq_zero_of_not_mem (l : List (ConnId × SafeUser)) (k : ConnId)
    (h : k ∉ l.map Prod.fst) : countKey l k = 0 := by
  induction l with
  | nil => simp [countKey]
  | cons p rest ih =>
    simp only [List.map_cons, List.mem_cons, not_or] at h
    rw [countKey_cons, ih h.2]
    simp [Ne.symm h.1]

theorem countKey_objSet_self (l : List (ConnId × SafeUser)) (k : ConnId)
    (v : SafeUser) (hnd : (l.map Prod.fst).Nodup) :
    countKey (objSet l k v) k = 1 := by
  induction l with
  | nil => simp [objSet, countKey]
  | cons p rest ih =>
    obtain ⟨a, b⟩ := p
    simp only [List.map_cons, List.nodup_cons] at hnd
    by_cases h : a = k
    · subst h
      simp only [objSet, beq_self_eq_true, if_pos]
      rw [countKey_cons, countKey_eq_zero_of_not_mem rest a hnd.1]
      simp
    · simp only [objSet, beq_iff_eq, h, if_neg, not_false_iff]
      rw [countKey_cons, ih hnd.2]
      simp [h]

theorem countKey_objDelete_self (l : List (ConnId × SafeUser)) (k : ConnId)
    (hnd : (l.map Prod.fst).Nodup) : countKey (objDelete l k) k = 0 := by
  induction l with
  | nil => simp [objDelete, countKey]
  | cons p rest ih =>
    obtain ⟨a, b⟩ := p
    simp only [List.map_cons, List.nodup_cons] at hnd
    by_cases h : a = k
    · subst h
      simp only [objDelete, beq_self_eq_true, if_pos]
      exact countKey_eq_zero_of_not_mem rest a hnd.1
    · simp only [objDelete, beq_iff_eq, h, if_neg, not_false_iff]
      rw [countKey_cons, ih hnd.2]
      simp [h]

theorem objGet_isSome_iff_mem (l : List (ConnId × SafeUser)) (k : ConnId) :
    (objGet l k).isSome ↔ k ∈ l.map Prod.fst := by
  induction l with
  | nil => simp [objGet]
  | cons p rest ih =>
    obtain ⟨a, b⟩ := p
    by_cases h : a = k
    · simp [objGet, h]
    · have hg : objGet ((a, b) :: rest) k = objGet rest k := by
        simp [objGet, h]
      rw [hg, ih]
      simp [Ne.symm h]

theorem mem_map_fst_objDelete (l : List (ConnId × SafeUser)) (k sid : ConnId)
    (h : sid ∈ (objDelete l k).map Prod.fst) : sid ∈ l.map Prod.fst := by
  induction l with
  | nil => simp [objDelete] at h
  | cons p rest ih =>
    obtain ⟨a, b⟩ := p
    by_cases ha : a = k
    · simp only [objDelete, beq_iff_eq, ha, if_pos] at h
      simp [h]
    · simp only [objDelete, beq_iff_eq, ha, if_neg, not_false_iff,
        List.map_cons, List.mem_cons] at h ⊢
      rcases h with h | h
      · exact Or.inl h
      · exact Or.inr (ih h)

/-! ### Eviction lemmas -/

theorem appendEvict_eq_drop (l : List Message) (m : Message) :
    appendEvict l m = (l ++ [m]).drop (l.length + 1 - 2000) := by
  simp only [appendEvict, List.length_append, List.length_cons, List.length_nil,
    Nat.zero_add, gt_iff_lt]
  by_cases h : 2000 < l.length + 1
  · rw [if_pos h]
  · rw [if_neg h]
    have h0 : l.length + 1 - 2000 = 0 := by omega
    rw [h0, List.drop_zero]

theorem appendEvict_length (l : List Message) (m : Message) :
    (appendEvict l m).length = min (l.length + 1) 2000 := by
  rw [appendEvict_eq_drop]
  simp only [List.length_drop, List.length_append, List.length_cons,
    List.length_nil, Nat.zero_add]
  omega

theorem appendEvict_getLast? (l : List Message) (m : Message) :
    (appendEvict l m).getLast? = some m := by
  rw [appendEvict_eq_drop]
  have hle : l.length + 1 - 2000 ≤ l.length := by omega
  rw [List.drop_append_of_le_length hle]
  exact List.getLast?_concat _

theorem foldl_appendEvict (ms : List Message) :
    ∀ l : List Message, l.length ≤ 2000 →
      List.foldl appendEvict l ms = (l ++ ms).drop ((l ++ ms).length - 2000) := by
  induction ms with
  | nil =>
    intro l hl
    have h0 : l.length - 2000 = 0 := by omega
    simp [h0]
  | cons m ms ih =>
    intro l hl
    rw [List.foldl_cons]
    have hlen : (appendEvict l m).length ≤ 2000 := by
      rw [appendEvict_length]; omega
    rw [ih (appendEvict l m) hlen, appendEvict_eq_drop]
    have hd : l.length + 1 - 2000 ≤ (l ++ [m]).length := by
      simp only [List.length_append, List.length_cons, List.length_nil,
        Nat.zero_add]
      omega
    have he : ((l ++ [m]) ++ ms).drop (l.length + 1 - 2000) =
        (l ++ [m]).drop (l.length + 1 - 2000) ++ ms :=
      List.drop_append_of_le_length hd
    rw [← he, List.drop_drop, List.append_assoc, List.singleton_append]
    have hi : l.length + 1 - 2000 +
        ((List.drop (l.length + 1 - 2000) (l ++ m :: ms)).length - 2000) =
        (l ++ m :: ms).length - 2000 := by
      simp only [List.length_drop, List.length_append, List.length_cons]
      omega
    rw [hi]

/-! ### Noninterference helpers (password hash never observable) -/

theorem safeUser_eq_of_agree {u v : User} (h : agreeExceptHash u v) :
    safeUser u = safeUser v := by
  obtain ⟨h1, h2, h3, h4, _⟩ := h
  simp [safeUser, h1, h2, h3, h4]

theorem find?_map_safe_eq (uid : String) {us1 us2 : List User}
    (h : List.Forall₂ agreeExceptHash us1 us2) :
    (us1.find? (fun u => u.id == uid)).map safeUser =
      (us2.find? (fun u => u.id == uid)).map safeUser := by
  induction h with
  | nil => rfl
  | @cons a b l1 l2 hab htl ih =>
    by_cases hc : b.id = uid
    · have ha : a.id = uid := by rw [hab.1]; exact hc
      simp [List.find?_cons, hc, ha, safeUser_eq_of_agree hab]
    · have ha : ¬a.id = uid := by rw [hab.1]; exact hc
      simp [List.find?_cons, hc, ha, ih]

/-! ### Claim C1 — successful auth -/

/-- C1: for every `userId` that resolves to an existing user in the store,
handling `auth` authenticates the session, leaves exactly one presence
entry for the connection, broadcasts the updated presence snapshot to all
connections, and then sends the most recent at-most-500 persisted messages
to the requesting connection only. -/
theorem claim1_auth_success (st : ServerState) (sid : ConnId) (uid : String)
    (user : User) (hnd : (st.online.map Prod.fst).Nodup)
    (hfind : st.users.find? (fun u => u.id == uid) = some user) :
    objGet (handleAuth st sid uid).1.socketUser sid = some (safeUser user) ∧
    countKey (handleAuth st sid uid).1.online sid = 1 ∧
    (handleAuth st sid uid).2 =
      [Event.updateUsers (objValues (handleAuth st sid uid).1.online),
       Event.loadMessages sid (st.messages.drop (st.messages.length - 500))] ∧
    (st.messages.drop (st.messages.length - 500)).length ≤ 500 ∧
    ∀ conns : List ConnId,
      Event.recipients conns
          (Event.updateUsers (objValues (handleAuth st sid uid).1.online)) =
        conns ∧
      Event.recipients conns
          (Event.loadMessages sid
            (st.messages.drop (st.messages.length - 500))) = [sid] := by
  unfold handleAuth
  simp only [hfind]
  refine ⟨objGet_objSet_self _ _ _, countKey_objSet_self _ _ _ hnd, by trivial,
    ?_, ?_⟩
  · simp only [List.length_drop]
    omega
  · intro conns
    exact ⟨by trivial, by trivial⟩

/-- Closed witness for C1 at a concrete store and connection. -/
theorem claim1_witness :
    (st0.online.map Prod.fst).Nodup ∧
    st0.users.find? (fun u => u.id == "u1") = some aliceU ∧
    (objGet (handleAuth st0 "c1" "u1").1.socketUser "c1" =
        some (safeUser aliceU) ∧
      countKey (handleAuth st0 "c1" "u1").1.online "c1" = 1 ∧
      (handleAuth st0 "c1" "u1").2 =
        [Event.updateUsers (objValues (handleAuth st0 "c1" "u1").1.online),
         Event.loadMessages "c1"
           (st0.messages.drop (st0.messages.length - 500))] ∧
      (st0.messages.drop (st0.messages.length - 500)).length ≤ 500 ∧
      ∀ conns : List ConnId,
        Event.recipients conns
            (Event.updateUsers (objValues (handleAuth st0 "c1" "u1").1.online)) =
          conns ∧
        Event.recipients conns
            (Event.loadMessages "c1"
              (st0.messages.drop (st0.messages.length - 500))) = ["c1"]) :=
  ⟨by decide, by decide,
    claim1_auth_success st0 "c1" "u1" aliceU (by decide) (by decide)⟩

/-! ### Claim C2 — failed auth on an unauthenticated connection -/

/-- C2: for every `userId` that does not resolve to a user, handling
`auth` leaves the session unauthenticated and the presence registry
unchanged, and emits `auth-failed` to the requesting connection only. -/
theorem claim2_auth_failure (st : ServerState) (sid : ConnId) (uid : String)
    (hfind : st.users.find? (fun u => u.id == uid) = none)
    (hunauth : objGet st.socketUser sid = none) :
    handleAuth st sid uid = (st, [Event.authFailed sid]) ∧
    objGet (handleAuth st sid uid).1.socketUser sid = none ∧
    (handleAuth st sid uid).1.online = st.online ∧
    ∀ conns : List ConnId,
      Event.recipients conns (Event.authFailed sid) = [sid] := by
  unfold handleAuth
  simp only [hfind]
  exact ⟨by trivial, hunauth, by trivial, fun conns => by trivial⟩

/-- Closed witness for C2 at a concrete store and connection. -/
theorem claim2_witness :
    st0.users.find? (fun u => u.id == "zz") = none ∧
    objGet st0.socketUser "c1" = none ∧
    (handleAuth st0 "c1" "zz" = (st0, [Event.authFailed "c1"]) ∧
      objGet (handleAuth st0 "c1" "zz").1.socketUser "c1" = none ∧
      (handleAuth st0 "c1" "zz").1.online = st0.online ∧
      ∀ conns : List ConnId,
        Event.recipients conns (Event.authFailed "c1") = ["c1"]) :=
  ⟨by decide, by decide, claim2_auth_failure st0 "c1" "zz" (by decide) (by decide)⟩

/-! ### Claim C4 — all-whitespace text is a no-op -/

/-- C4: on an authenticated session, a `send-message` whose text trims to
the empty string leaves the whole state unchanged and emits nothing. -/
theorem claim4_whitespace_noop (st : ServerState) (sid : ConnId)
    (text msgId : String) (now : Nat) (su : SafeUser)
    (hauth : objGet st.socketUser sid = some su)
    (htrim : jsTrim text = "") :
    handleSendMessage st sid text msgId now = (st, []) := by
  unfold handleSendMessage
  simp [hauth, htrim]

/-- Closed witness for C4 with a three-space text. -/
theorem claim4_witness :
    objGet stA.socketUser "c1" = some aliceS ∧
    jsTrim "   " = "" ∧
    handleSendMessage stA "c1" "   " "m1" 5 = (stA, []) :=
  ⟨by decide, by decide,
    claim4_whitespace_noop stA "c1" "   " "m1" 5 aliceS (by decide) (by decide)⟩

/-! ### Claim C5 — unauthenticated sends are silently dropped -/

/-- C5: a `send-message` or `send-image` on an unauthenticated connection
changes nothing and emits nothing to anyone. -/
theorem claim5_unauth_drop (st : ServerState) (sid : ConnId)
    (text url msgId : String) (now : Nat)
    (hunauth : objGet st.socketUser sid = none) :
    handleSendMessage st sid text msgId now = (st, []) ∧
    handleSendImage st sid url msgId now = (st, []) := by
  unfold handleSendMessage handleSendImage
  simp [hunauth]

/-- Closed witness for C5 on a fresh connection. -/
theorem claim5_witness :
    objGet st0.socketUser "c1" = none ∧
    (handleSendMessage st0 "c1" "hello" "m1" 5 = (st0, []) ∧
      handleSendImage st0 "c1" "/uploads/x.png" "m1" 5 = (st0, [])) :=
  ⟨by decide,
    claim5_unauth_drop st0 "c1" "hello" "/uploads/x.png" "m1" 5 (by decide)⟩

/-! ### Claim C10 — failed re-auth does not log the session out -/

/-- C10: on an already-authenticated connection, an `auth` with an unknown
`userId` only emits `auth-failed` to that connection; the session keeps
its previously bound user and the presence entry is untouched. -/
theorem claim10_failed_reauth (st : ServerState) (sid : ConnId) (uid : String)
    (su u : SafeUser)
    (hfind : st.users.find? (fun u => u.id == uid) = none)
    (hauth : objGet st.socketUser sid = some su)
    (hon : objGet st.online sid = some u) :
    handleAuth st sid uid = (st, [Event.authFailed sid]) ∧
    objGet (handleAuth st sid uid).1.socketUser sid = some su ∧
    objGet (handleAuth st sid uid).1.online sid = some u := by
  unfold handleAuth
  simp only [hfind]
  exact ⟨by trivial, hauth, hon⟩

/-- Closed witness for C10: `c1` is authenticated as alice, then sends an
`auth` with an unknown id. -/
theorem claim10_witness :
    stA.users.find? (fun u => u.id == "zz") = none ∧
    objGet stA.socketUser "c1" = some aliceS ∧
    objGet stA.online "c1" = some aliceS ∧
    (handleAuth stA "c1" "zz" = (stA, [Event.authFailed "c1"]) ∧
      objGet (handleAuth stA "c1" "zz").1.socketUser "c1" = some aliceS ∧
      objGet (handleAuth stA "c1" "zz").1.online "c1" = some aliceS) :=
  ⟨by decide, by decide, by decide,
    claim10_failed_reauth stA "c1" "zz" aliceS aliceS (by decide) (by decide)
      (by decide)⟩

/-! ### Presence-lifetime invariant -/

theorem presenceInv_step (st : ServerState) (e : InEvent) (h : PresenceInv st) :
    PresenceInv (step st e).1 := by
  cases e with
  | auth sid uid =>
    simp only [step]
    unfold handleAuth
    cases hf : st.users.find? (fun u => u.id == uid) with
    | none => exact h
    | some user =>
      intro s hs
      by_cases hsid : s = sid
      · subst hsid
        rw [objGet_objSet_self]
        rfl
      · rw [objGet_objSet_ne _ _ _ _ hsid] at hs ⊢
        exact h s hs
  | sendText sid text msgId now =>
    simp only [step]
    unfold handleSendMessage
    cases hg : objGet st.socketUser sid with
    | none => exact h
    | some su =>
      by_cases ht : jsTrim text = "" <;> simp only [ht, if_pos, if_neg,
        not_false_iff] <;> exact h
  | sendImage sid url msgId now =>
    simp only [step]
    unfold handleSendImage
    cases hg : objGet st.online sid with
    | none =>
      cases hg2 : objGet st.socketUser sid with
      | none => exact h
      | some su =>
        by_cases ht : url = "" <;> simp only [ht, if_pos, if_neg,
          not_false_iff] <;> exact h
    | some u =>
      cases hg2 : objGet st.socketUser sid with
      | none => exact h
      | some su =>
        by_cases ht : url = "" <;> simp only [ht, if_pos, if_neg,
          not_false_iff] <;> exact h
  | disconnect sid =>
    simp only [step]
    unfold handleDisconnect
    cases hg : objGet st.online sid with
    | none => exact h
    | some u =>
      intro s hs
      rw [objGet_isSome_iff_mem] at hs
      have hmem := mem_map_fst_objDelete _ _ _ hs
      rw [← objGet_isSome_iff_mem] at hmem
      exact h s hmem

/-! ### Claim C3 — bounded retention with FIFO eviction -/

/-- C3: an accepted send persists through `appendEvict` exactly; starting
from an empty log, any sequence of more than 2000 accepted appends leaves
exactly the most recent 2000 messages in their original relative order
(oldest evicted first, i.e. the log is the final suffix of the send
sequence), and no single append ever leaves more than 2000 entries. -/
theorem claim3_retention (ms : List Message) (h : 2000 < ms.length) :
    List.foldl appendEvict [] ms = ms.drop (ms.length - 2000) ∧
    (List.foldl appendEvict [] ms).length = 2000 ∧
    (∀ (l : List Message) (m : Message), (appendEvict l m).length ≤ 2000) ∧
    ∀ (st : ServerState) (sid : ConnId) (text msgId : String) (now : Nat)
      (su : SafeUser), objGet st.socketUser sid = some su →
      jsTrim text ≠ "" →
      (handleSendMessage st sid text msgId now).1.messages =
        appendEvict st.messages (mkTextMsg su (jsTrim text) msgId now) := by
  have hfold := foldl_appendEvict ms [] (by simp)
  simp only [List.nil_append] at hfold
  refine ⟨hfold, ?_, ?_, ?_⟩
  · rw [hfold]
    simp only [List.length_drop]
    omega
  · intro l m
    rw [appendEvict_length]
    omega
  · intro st sid text msgId now su hauth htrim
    unfold handleSendMessage
    simp [hauth, htrim]

/-- Closed witness for C3 on a 2001-message send sequence. -/
theorem claim3_witness :
    2000 < (List.replicate 2001 mA).length ∧
    (List.foldl appendEvict [] (List.replicate 2001 mA) =
        (List.replicate 2001 mA).drop ((List.replicate 2001 mA).length - 2000) ∧
      (List.foldl appendEvict [] (List.replicate 2001 mA)).length = 2000 ∧
      (∀ (l : List Message) (m : Message), (appendEvict l m).length ≤ 2000) ∧
      ∀ (st : ServerState) (sid : ConnId) (text msgId : String) (now : Nat)
        (su : SafeUser), objGet st.socketUser sid = some su →
        jsTrim text ≠ "" →
        (handleSendMessage st sid text msgId now).1.messages =
          appendEvict st.messages (mkTextMsg su (jsTrim text) msgId now)) :=
  ⟨by rw [List.length_replicate]; omega,
    claim3_retention (List.replicate 2001 mA)
      (by rw [List.length_replicate]; omega)⟩

/-! ### Claim C6 — append/read-back round trip -/

/-- C6: an accepted send (text or image) appends a message built from the
sender snapshot taken at send time; reading the log back through
`GET /api/messages` returns that exact message (field for field) as the
most recent entry, and the read-back is unaffected by any later change to
the user store. -/
theorem claim6_roundtrip (st : ServerState) (sid : ConnId)
    (text url msgId : String) (now : Nat) (su : SafeUser)
    (hauth : objGet st.socketUser sid = some su)
    (htrim : jsTrim text ≠ "") (hurl : url ≠ "") :
    ((handleSendMessage st sid text msgId now).2 =
        [Event.newMessage (mkTextMsg su (jsTrim text) msgId now)] ∧
      ∀ users' : List User,
        (apiMessages
            { (handleSendMessage st sid text msgId now).1 with
                users := users' }).getLast? =
          some (mkTextMsg su (jsTrim text) msgId now)) ∧
    ((handleSendImage st sid url msgId now).2 =
        [Event.newMessage (mkImageMsg su url msgId now)] ∧
      ∀ users' : List User,
        (apiMessages
            { (handleSendImage st sid url msgId now).1 with
                users := users' }).getLast? =
          some (mkImageMsg su url msgId now)) := by
  constructor
  · unfold handleSendMessage
    simp only [hauth, htrim, if_neg, not_false_iff]
    refine ⟨by trivial, ?_⟩
    intro users'
    simp only [apiMessages]
    exact appendEvict_getLast? _ _
  · unfold handleSendImage
    simp only [hauth, hurl, if_neg, not_false_iff]
    refine ⟨by trivial, ?_⟩
    intro users'
    simp only [apiMessages]
    exact appendEvict_getLast? _ _

/-- Closed witness for C6: alice sends "hi" and an image url; however the
user store is later replaced, the read-back returns the snapshot message. -/
theorem claim6_witness :
    objGet stA.socketUser "c1" = some aliceS ∧
    jsTrim "hi" ≠ "" ∧
    "/uploads/x.png" ≠ "" ∧
    (((handleSendMessage stA "c1" "hi" "m1" 5).2 =
          [Event.newMessage (mkTextMsg aliceS (jsTrim "hi") "m1" 5)] ∧
        ∀ users' : List User,
          (apiMessages
              { (handleSendMessage stA "c1" "hi" "m1" 5).1 with
                  users := users' }).getLast? =
            some (mkTextMsg aliceS (jsTrim "hi") "m1" 5)) ∧
      ((handleSendImage stA "c1" "/uploads/x.png" "m1" 5).2 =
          [Event.newMessage (mkImageMsg aliceS "/uploads/x.png" "m1" 5)] ∧
        ∀ users' : List User,
          (apiMessages
              { (handleSendImage stA "c1" "/uploads/x.png" "m1" 5).1 with
                  users := users' }).getLast? =
            some (mkImageMsg aliceS "/uploads/x.png" "m1" 5))) :=
  ⟨by decide, by decide, by decide,
    claim6_roundtrip stA "c1" "hi" "/uploads/x.png" "m1" 5 aliceS (by decide)
      (by decide) (by decide)⟩

/-! ### Claim C7 — store I/O failure behaviour (corrected) -/

/-- C7 counterexample: at a concrete authenticated connection with an
accepted text, a failing persistence write produces no outbound event at
all, while the identical send with a successful write broadcasts
`new-message` — so the in-memory broadcast does NOT still proceed when
the store write fails (`io.emit` sits after the awaited `writeJSON`). -/
theorem claim7_counterexample :
    (handleSendMessageFallible stA "c1" "hi" "m1" 5 WriteOutcome.ioError).2 =
      [] ∧
    (handleSendMessageFallible stA "c1" "hi" "m1" 5 WriteOutcome.ok).2 =
      [Event.newMessage (mkTextMsg aliceS "hi" "m1" 5)] := by
  decide

/-- C7 amended: when persisting a message fails with a store write error,
the handler aborts before the emit — no `new-message` broadcast occurs and
the persisted log is unchanged; and a failed, corrupt or missing read of
the backing file degrades to the empty sequence rather than an error. -/
theorem claim7_amended :
    (∀ (st : ServerState) (sid : ConnId) (text msgId : String) (now : Nat),
      handleSendMessageFallible st sid text msgId now WriteOutcome.ioError =
        (st, [])) ∧
    readJSONMessages none = [] := by
  refine ⟨?_, rfl⟩
  intro st sid text msgId now
  unfold handleSendMessageFallible
  cases hg : objGet st.socketUser sid with
  | none => rfl
  | some su =>
    by_cases ht : jsTrim text = "" <;> simp [ht]

/-! ### Claim C8 — disconnect removes presence and broadcasts -/

/-- C8: disconnecting a connection that holds a presence entry removes
that entry and broadcasts the updated presence snapshot to all remaining
connections; moreover every handler step preserves the invariant that a
presence entry exists only while its session is authenticated, so a
presence entry never outlives its session. -/
theorem claim8_disconnect (st : ServerState) (sid : ConnId) (u : SafeUser)
    (hnd : (st.online.map Prod.fst).Nodup)
    (hon : objGet st.online sid = some u) :
    countKey (handleDisconnect st sid).1.online sid = 0 ∧
    (handleDisconnect st sid).2 =
      [Event.updateUsers (objValues (handleDisconnect st sid).1.online)] ∧
    (∀ conns : List ConnId,
      Event.recipients conns
          (Event.updateUsers (objValues (handleDisconnect st sid).1.online)) =
        conns) ∧
    ∀ (st' : ServerState) (e : InEvent),
      PresenceInv st' → PresenceInv (step st' e).1 := by
  unfold handleDisconnect
  simp only [hon]
  exact ⟨countKey_objDelete_self _ _ hnd, by trivial, fun conns => by trivial,
    fun st' e h => presenceInv_step st' e h⟩

/-- Closed witness for C8: alice's connection disconnects. -/
theorem claim8_witness :
    (stA.online.map Prod.fst).Nodup ∧
    objGet stA.online "c1" = some aliceS ∧
    (countKey (handleDisconnect stA "c1").1.online "c1" = 0 ∧
      (handleDisconnect stA "c1").2 =
        [Event.updateUsers (objValues (handleDisconnect stA "c1").1.online)] ∧
      (∀ conns : List ConnId,
        Event.recipients conns
            (Event.updateUsers
              (objValues (handleDisconnect stA "c1").1.online)) = conns) ∧
      ∀ (st' : ServerState) (e : InEvent),
        PresenceInv st' → PresenceInv (step st' e).1) :=
  ⟨by decide, by decide, claim8_disconnect stA "c1" aliceS (by decide) (by decide)⟩

/-! ### Claim C9 — no event depends on password hashes -/

theorem step_agree (s1 s2 : ServerState) (e : InEvent) (h : StatesAgree s1 s2) :
    StatesAgree (step s1 e).1 (step s2 e).1 ∧ (step s1 e).2 = (step s2 e).2 := by
  obtain ⟨hu, hm, ho, hs⟩ := h
  cases e with
  | auth sid uid =>
    simp only [step]
    unfold handleAuth
    have hf := find?_map_safe_eq uid hu
    cases hf1 : s1.users.find? (fun u => u.id == uid) with
    | none =>
      cases hf2 : s2.users.find? (fun u => u.id == uid) with
      | none => exact ⟨⟨hu, hm, ho, hs⟩, rfl⟩
      | some u2 =>
        rw [hf1, hf2] at hf
        simp at hf
    | some u1 =>
      cases hf2 : s2.users.find? (fun u => u.id == uid) with
      | none =>
        rw [hf1, hf2] at hf
        simp at hf
      | some u2 =>
        rw [hf1, hf2] at hf
        have hsafe : safeUser u1 = safeUser u2 := by simpa using hf
        refine ⟨⟨hu, hm, ?_, ?_⟩, ?_⟩
        · show objSet s1.online sid (safeUser u1) =
            objSet s2.online sid (safeUser u2)
          rw [ho, hsafe]
        · show objSet s1.socketUser sid (safeUser u1) =
            objSet s2.socketUser sid (safeUser u2)
          rw [hs, hsafe]
        · show [Event.updateUsers (objValues (objSet s1.online sid (safeUser u1))),
              Event.loadMessages sid
                (s1.messages.drop (s1.messages.length - 500))] =
            [Event.updateUsers (objValues (objSet s2.online sid (safeUser u2))),
              Event.loadMessages sid
                (s2.messages.drop (s2.messages.length - 500))]
          rw [ho, hsafe, hm]
  | sendText sid text msgId now =>
    simp only [step]
    unfold handleSendMessage
    have hgg : objGet s1.socketUser sid = objGet s2.socketUser sid := by rw [hs]
    cases hg1 : objGet s1.socketUser sid with
    | none =>
      rw [hg1] at hgg
      rw [← hgg]
      exact ⟨⟨hu, hm, ho, hs⟩, rfl⟩
    | some su =>
      rw [hg1] at hgg
      rw [← hgg]
      by_cases ht : jsTrim text = ""
      · simp only [ht, if_pos]
        exact ⟨⟨hu, hm, ho, hs⟩, by trivial⟩
      · simp only [ht, if_neg, not_false_iff]
        refine ⟨⟨hu, ?_, ho, hs⟩, by trivial⟩
        show appendEvict s1.messages (mkTextMsg su (jsTrim text) msgId now) =
          appendEvict s2.messages (mkTextMsg su (jsTrim text) msgId now)
        rw [hm]
  | sendImage sid url msgId now =>
    simp only [step]
    unfold handleSendImage
    have hgg : objGet s1.socketUser sid = objGet s2.socketUser sid := by rw [hs]
    cases hg1 : objGet s1.socketUser sid with
    | none =>
      rw [hg1] at hgg
      rw [← hgg]
      exact ⟨⟨hu, hm, ho, hs⟩, rfl⟩
    | some su =>
      rw [hg1] at hgg
      rw [← hgg]
      by_cases ht : url = ""
      · simp only [ht, if_pos]
        exact ⟨⟨hu, hm, ho, hs⟩, by trivial⟩
      · simp only [ht, if_neg, not_false_iff]
        refine ⟨⟨hu, ?_, ho, hs⟩, by trivial⟩
        show appendEvict s1.messages (mkImageMsg su url msgId now) =
          appendEvict s2.messages (mkImageMsg su url msgId now)
        rw [hm]
  | disconnect sid =>
    simp only [step]
    unfold handleDisconnect
    have hgg : objGet s1.online sid = objGet s2.online sid := by rw [ho]
    cases hg1 : objGet s1.online sid with
    | none =>
      rw [hg1] at hgg
      rw [← hgg]
      exact ⟨⟨hu, hm, ho, hs⟩, rfl⟩
    | some u =>
      rw [hg1] at hgg
      rw [← hgg]
      refine ⟨⟨hu, hm, ?_, hs⟩, ?_⟩
      · show objDelete s1.online sid = objDelete s2.online sid
        rw [ho]
      · show [Event.updateUsers (objValues (objDelete s1.online sid))] =
          [Event.updateUsers (objValues (objDelete s2.online sid))]
        rw [ho]

theorem runEvents_agree (es : List InEvent) :
    ∀ s1 s2 : ServerState, StatesAgree s1 s2 →
      (runEvents s1 es).2 = (runEvents s2 es).2 := by
  induction es with
  | nil =>
    intro s1 s2 _
    rfl
  | cons e es ih =>
    intro s1 s2 h
    have h' := step_agree s1 s2 e h
    simp only [runEvents]
    rw [h'.2, ih _ _ h'.1]

/-- C9: outbound traffic never depends on a password hash.  For any two
user stores that differ only in password hashes, every inbound event
sequence produces identical outbound events — so every presence entry and
every broadcast payload is built from the safe projection only, and no
delivered event can carry a digest. -/
theorem claim9_no_password_leak (us1 us2 : List User) (ms : List Message)
    (onl sockets : List (ConnId × SafeUser)) (es : List InEvent)
    (h : List.Forall₂ agreeExceptHash us1 us2) :
    (runEvents ⟨us1, ms, onl, sockets⟩ es).2 =
      (runEvents ⟨us2, ms, onl, sockets⟩ es).2 :=
  runEvents_agree es _ _ ⟨h, rfl, rfl, rfl⟩

/-- A concrete inbound session: authenticate, send a text, disconnect. -/
def wEvents : List InEvent :=
  [InEvent.auth "c1" "u1", InEvent.sendText "c1" "hi" "m1" 5,
    InEvent.disconnect "c1"]

/-- Closed witness for C9: two stores differing only in alice's password
hash drive identical outbound traffic on a full session. -/
theorem claim9_witness :
    List.Forall₂ agreeExceptHash [aliceU] [aliceU2] ∧
    (runEvents ⟨[aliceU], [], [], []⟩ wEvents).2 =
      (runEvents ⟨[aliceU2], [], [], []⟩ wEvents).2 :=
  ⟨List.Forall₂.cons ⟨rfl, rfl, rfl, rfl, rfl⟩ List.Forall₂.nil,
    claim9_no_password_leak [aliceU] [aliceU2] [] [] [] wEvents
      (List.Forall₂.cons ⟨rfl, rfl, rfl, rfl, rfl⟩ List.Forall₂.nil)⟩

/-! ### The JS-object key invariant is maintained by every step
(justifying the `Nodup` hypotheses: `online` is a JS object, whose keys
are unique by construction — empty at start, updated only by `objSet`
and `objDelete`). -/

theorem mem_map_fst_objSet (l : List (ConnId × SafeUser)) (k x : ConnId)
    (v : SafeUser) (h : x ∈ (objSet l k v).map Prod.fst) :
    x = k ∨ x ∈ l.map Prod.fst := by
  induction l with
  | nil =>
    simp only [objSet, List.map_cons, List.map_nil, List.mem_singleton] at h
    exact Or.inl h
  | cons p rest ih =>
    obtain ⟨a, b⟩ := p
    by_cases ha : a = k
    · simp only [objSet, beq_iff_eq, ha, if_pos, List.map_cons,
        List.mem_cons] at h
      rcases h with h | h
      · exact Or.inl h
      · exact Or.inr (by simp [h])
    · simp only [objSet, beq_iff_eq, ha, if_neg, not_false_iff,
        List.map_cons, List.mem_cons] at h
      rcases h with h | h
      · exact Or.inr (by simp [h])
      · rcases ih h with h' | h'
        · exact Or.inl h'
        · exact Or.inr (by simp [h'])

theorem nodupKeys_objSet (l : List (ConnId × SafeUser)) (k : ConnId)
    (v : SafeUser) (hnd : (l.map Prod.fst).Nodup) :
    ((objSet l k v).map Prod.fst).Nodup := by
  induction l with
  | nil => simp [objSet]
  | cons p rest ih =>
    obtain ⟨a, b⟩ := p
    simp only [List.map_cons, List.nodup_cons] at hnd
    by_cases ha : a = k
    · subst ha
      simp only [objSet, beq_self_eq_true, if_pos, List.map_cons,
        List.nodup_cons]
      exact ⟨hnd.1, hnd.2⟩
    · simp only [objSet, beq_iff_eq, ha, if_neg, not_false_iff,
        List.map_cons, List.nodup_cons]
      refine ⟨?_, ih hnd.2⟩
      intro hmem
      rcases mem_map_fst_objSet rest k a v hmem with h' | h'
      · exact ha h'
      · exact hnd.1 h'

theorem nodupKeys_objDelete (l : List (ConnId × SafeUser)) (k : ConnId)
    (hnd : (l.map Prod.fst).Nodup) : ((objDelete l k).map Prod.fst).Nodup := by
  induction l with
  | nil => simp [objDelete]
  | cons p rest ih =>
    obtain ⟨a, b⟩ := p
    simp only [List.map_cons, List.nodup_cons] at hnd
    by_cases ha : a = k
    · simp only [objDelete, beq_iff_eq, ha, if_pos]
      exact hnd.2
    · simp only [objDelete, beq_iff_eq, ha, if_neg, not_false_iff,
        List.map_cons, List.nodup_cons]
      refine ⟨?_, ih hnd.2⟩
      intro hmem
      exact hnd.1 (mem_map_fst_objDelete rest k a hmem)

theorem nodupKeys_step (st : ServerState) (e : InEvent)
    (hnd : (st.online.map Prod.fst).Nodup) :
    ((step st e).1.online.map Prod.fst).Nodup := by
  cases e with
  | auth sid uid =>
    simp only [step]
    unfold handleAuth
    cases hf : st.users.find? (fun u => u.id == uid) with
    | none => exact hnd
    | some user => exact nodupKeys_objSet _ _ _ hnd
  | sendText sid text msgId now =>
    simp only [step]
    unfold handleSendMessage
    cases hg : objGet st.socketUser sid with
    | none => exact hnd
    | some su =>
      by_cases ht : jsTrim text = "" <;> simp only [ht, if_pos, if_neg,
        not_false_iff] <;> exact hnd
  | sendImage sid url msgId now =>
    simp only [step]
    unfold handleSendImage
    cases hg : objGet st.socketUser sid with
    | none => exact hnd
    | some su =>
      by_cases ht : url = "" <;> simp only [ht, if_pos, if_neg,
        not_false_iff] <;> exact hnd
  | disconnect sid =>
    simp only [step]
    unfold handleDisconnect
    cases hg : objGet st.online sid with
    | none => exact hnd
    | some u => exact nodupKeys_objDelete _ _ hnd
